import Mathlib

/-
Verification of the data-splitting and batching subsystem of `src/main.py`
(function `get_data_splits`, its nested helper `index_list_by_indices`, and
the greedy batch packer described by the design document for the external
`BatchSampler` collaborator).

Modelling conventions:
* a Python sample (an entry of `data_list`) is a `Sample`: only its identity
  and its `coords_list` length are ever inspected by the code under study;
* Python exceptions (`IndexError` from `lst[index]`, `AssertionError` from
  `assert`, `ValueError` from unpacking `zip(*[])`) are the constructors of
  `PyError`; a Python function that can raise returns `Except PyError _` or
  `Option _`;
* `rmsd_list` (produced by the external `get_avg_rmsds`) and the
  `seq_identity_split.pt` artifact (three index lists loaded with
  `torch.load`) are inputs of the embedding;
* Python's `sorted(key=lambda x: x[1], reverse=True)` is a stable sort
  placing larger keys first; it is embedded as the insertion sort
  `sortDesc`, which is stable and orders keys in non-increasing order.
-/

namespace RNASplit

/-- A sample of the corpus: `tag` identifies it, `coords_list` stands for the
Python `data["coords_list"]` field (only its length is used). -/
structure Sample where
  tag : Nat
  coords_list : List Nat
deriving DecidableEq, Repr

/-- The Python exceptions the modelled code can raise. -/
inductive PyError where
  | indexError
  | valueError
  | assertionError
deriving DecidableEq, Repr

/-- Python list indexing `l[i]`: a negative index counts from the end;
an index outside `[-len(l), len(l))` raises `IndexError` (here: `none`). -/
def pyGet {α : Type} (l : List α) (i : Int) : Option α :=
  let j : Int := if i < 0 then i + l.length else i
  if 0 ≤ j then l.get? j.toNat else none

/-- The nested helper of `get_data_splits` (src/main.py lines 63-65):
the comprehension `[lst[index] for index in indices]`; the first
out-of-range index raises `IndexError` (here: `none`). -/
def index_list_by_indices {α : Type} (lst : List α) (indices : List Int) :
    Option (List α) :=
  match indices with
  | [] => some []
  | i :: is =>
    match pyGet lst i, index_list_by_indices lst is with
    | some x, some xs => some (x :: xs)
    | _, _ => none

/-- One step of the stable descending-key insertion sort: `x` is placed
before the first element whose key is not larger than the key of `x`. -/
def insertDesc {α : Type} (x : α × Int) : List (α × Int) → List (α × Int)
  | [] => [x]
  | y :: ys => if y.2 ≤ x.2 then x :: y :: ys else y :: insertDesc x ys

/-- Embedding of Python's `sorted(zipped, key=lambda x: x[1], reverse=True)`
(src/main.py lines 84 and 97): a stable sort by the second component,
largest first. -/
def sortDesc {α : Type} (l : List (α × Int)) : List (α × Int) :=
  l.foldr insertDesc []

/-- Embedding of `a, b = zip(*l)` (src/main.py lines 86 and 99):
on an empty list `zip()` yields no tuples and the unpacking raises
`ValueError`; otherwise it yields the two projections. -/
def pyUnzipPair {α β : Type} (l : List (α × β)) : Option (List α × List β) :=
  if l.isEmpty then none else some (l.map Prod.fst, l.map Prod.snd)

/-- The struct-strategy metric (src/main.py line 92):
`[len(data["coords_list"]) for data in data_list]`. -/
def count_list (data : List Sample) : List Int :=
  data.map (fun d => (d.coords_list.length : Int))

/-- The slicing of src/main.py lines 106-108, returned as
`(train_list, val_list, test_list)`:
`test = l[:e]`, `val = l[e:2*e]`, `train = l[2*e:]`. -/
def makeSlices {α : Type} (l : List α) (e : Nat) : List α × List α × List α :=
  (l.drop (2 * e), (l.drop e).take e, l.take e)

/-- Embedding of `get_data_splits` (src/main.py lines 56-110).
`data_list` is the loaded corpus, `rmsd_list` the output of the external
`get_avg_rmsds`, `seq_split` the `(train, val, test)` index lists of the
`seq_identity_split.pt` artifact, `eval_size` is `config.eval_size` and
`split_type` the strategy string. Returns `(train_list, val_list, test_list)`
or the Python exception raised. -/
def get_data_splits (data_list : List Sample) (rmsd_list : List Int)
    (seq_split : List Int × List Int × List Int) (eval_size : Nat)
    (split_type : String) :
    Except PyError (List Sample × List Sample × List Sample) :=
  if split_type = "seq_identity" then
    match index_list_by_indices data_list seq_split.1,
          index_list_by_indices data_list seq_split.2.1,
          index_list_by_indices data_list seq_split.2.2 with
    | some tr, some va, some te => .ok (tr, va, te)
    | _, _, _ => .error .indexError
  else if split_type = "rmsd" then
    if data_list.length = rmsd_list.length then
      match pyUnzipPair (sortDesc (data_list.zip rmsd_list)) with
      | some (d, _) => .ok (makeSlices d eval_size)
      | none => .error .valueError
    else .error .assertionError
  else if split_type = "struct" then
    match pyUnzipPair (sortDesc (data_list.zip (count_list data_list))) with
    | some (d, _) => .ok (makeSlices d eval_size)
    | none => .error .valueError
  else
    .ok (makeSlices data_list eval_size)

/-- Modelled from the spec: the `BatchSampler` class is imported from
`src.data`, whose source file is not part of the repository snapshot; this
is the greedy packing loop of design section 4.2 applied to one epoch's
index ordering. `cur` is the batch under construction (most recent first).
The next index joins the current batch when the batch total plus its size
stays within `maxNodes`; otherwise the current batch is emitted and a new
batch starts with that index; the final batch is always emitted. -/
def greedyGo (size : Nat → Nat) (maxNodes : Nat) (cur : List Nat) :
    List Nat → List (List Nat)
  | [] => [cur.reverse]
  | i :: rest =>
    if (cur.map size).sum + size i ≤ maxNodes then
      greedyGo size maxNodes (i :: cur) rest
    else
      cur.reverse :: greedyGo size maxNodes [i] rest

/-- Modelled from the spec: one epoch of the `BatchSampler` (design
section 4.2) on the ordering `order` of the split's indices: the batches
emitted by the greedy pass; an oversize sample still opens its own
(singleton) batch. -/
def greedyBatches (size : Nat → Nat) (maxNodes : Nat) :
    List Nat → List (List Nat)
  | [] => []
  | i :: rest => greedyGo size maxNodes [i] rest

/-- Shorthand for a tagged sample with no coordinates. -/
def mkS (n : Nat) : Sample := ⟨n, []⟩

/-- Keys in non-increasing order: the relation under which `sortDesc` sorts. -/
def keyGe {α : Type} (a b : α × Int) : Prop := b.2 ≤ a.2

theorem insertDesc_perm {α : Type} (x : α × Int) (l : List (α × Int)) :
    (insertDesc x l).Perm (x :: l) := by
  induction l with
  | nil => exact List.Perm.refl _
  | cons y ys ih =>
    by_cases h : y.2 ≤ x.2
    · simp [insertDesc, h]
    · simp only [insertDesc, if_neg h]
      exact (ih.cons y).trans (List.Perm.swap x y ys)

theorem sortDesc_perm {α : Type} (l : List (α × Int)) :
    (sortDesc l).Perm l := by
  induction l with
  | nil => exact List.Perm.refl _
  | cons x xs ih =>
    exact (insertDesc_perm x (sortDesc xs)).trans (ih.cons x)

theorem insertDesc_sorted {α : Type} (x : α × Int) (l : List (α × Int))
    (hl : List.Sorted keyGe l) : List.Sorted keyGe (insertDesc x l) := by
  induction l with
  | nil => simp [insertDesc, List.Sorted]
  | cons y ys ih =>
    rcases List.sorted_cons.mp hl with ⟨hy, hys⟩
    by_cases h : y.2 ≤ x.2
    · simp only [insertDesc, if_pos h]
      refine List.sorted_cons.mpr ⟨?_, hl⟩
      intro b hb
      rcases List.mem_cons.mp hb with rfl | hb
      · exact h
      · exact le_trans (hy b hb) h
    · simp only [insertDesc, if_neg h]
      refine List.sorted_cons.mpr ⟨?_, ih hys⟩
      intro b hb
      rcases List.mem_cons.mp ((insertDesc_perm x ys).mem_iff.mp hb) with rfl | hb
      · exact le_of_not_le h
      · exact hy b hb

theorem sortDesc_sorted {α : Type} (l : List (α × Int)) :
    List.Sorted keyGe (sortDesc l) := by
  induction l with
  | nil => simp [sortDesc, List.Sorted]
  | cons x xs ih => exact insertDesc_sorted x (sortDesc xs) ih

theorem insertDesc_filter {α : Type} (k : Int) (x : α × Int)
    (l : List (α × Int)) :
    (insertDesc x l).filter (fun y => y.2 == k)
      = if x.2 = k then x :: l.filter (fun y => y.2 == k)
        else l.filter (fun y => y.2 == k) := by
  induction l with
  | nil => by_cases hx : x.2 = k <;> simp [insertDesc, hx]
  | cons y ys ih =>
    by_cases h : y.2 ≤ x.2
    · rw [insertDesc, if_pos h]
      by_cases hx : x.2 = k <;> simp [hx, List.filter_cons]
    · rw [insertDesc, if_neg h]
      rw [List.filter_cons, List.filter_cons]
      by_cases hx : x.2 = k
      · have hyk : ¬ y.2 = k := fun hyk => h (le_of_eq (hx ▸ hyk))
        simp [ih, hx, hyk]
      · by_cases hy : y.2 = k <;> simp [ih, hx, hy]

theorem sortDesc_filter {α : Type} (k : Int) (l : List (α × Int)) :
    (sortDesc l).filter (fun y => y.2 == k)
      = l.filter (fun y => y.2 == k) := by
  induction l with
  | nil => rfl
  | cons x xs ih =>
    show (insertDesc x (sortDesc xs)).filter (fun y => y.2 == k) = _
    rw [insertDesc_filter, ih, List.filter_cons]
    by_cases hx : x.2 = k <;> simp [hx]

theorem sortDesc_length {α : Type} (l : List (α × Int)) :
    (sortDesc l).length = l.length :=
  (sortDesc_perm l).length_eq

theorem makeSlices_append {α : Type} (l : List α) (e : Nat) :
    (makeSlices l e).2.2 ++ (makeSlices l e).2.1 ++ (makeSlices l e).1 = l := by
  simp only [makeSlices, List.append_assoc]
  have h2 : l.drop (2 * e) = (l.drop e).drop e := by
    rw [List.drop_drop, two_mul]
  rw [h2, List.take_append_drop, List.take_append_drop]

theorem pyGet_eq_none_of_oob {α : Type} (l : List α) (i : Int)
    (h : i < -(l.length : Int) ∨ (l.length : Int) ≤ i) : pyGet l i = none := by
  unfold pyGet
  rcases h with h | h
  · have hi : i < 0 := by omega
    rw [if_pos hi]
    have hneg : ¬ (0 : Int) ≤ i + l.length := by omega
    simp [hneg]
  · have hi : ¬ i < 0 := by omega
    rw [if_neg hi, if_pos (by omega)]
    exact List.get?_eq_none.mpr (by omega)

theorem pyGet_neg {α : Type} (l : List α) (i : Int)
    (h1 : -(l.length : Int) ≤ i) (h2 : i < 0) :
    ∃ hlt : ((l.length : Int) + i).toNat < l.length,
      pyGet l i = some (l.get ⟨((l.length : Int) + i).toNat, hlt⟩) := by
  have hlt : ((l.length : Int) + i).toNat < l.length := by omega
  refine ⟨hlt, ?_⟩
  unfold pyGet
  rw [if_pos h2, if_pos (by omega)]
  have hj : (i + (l.length : Int)).toNat = ((l.length : Int) + i).toNat := by
    omega
  rw [hj]
  exact List.get?_eq_get hlt

theorem index_list_by_indices_eq_none_iff {α : Type} (lst : List α)
    (indices : List Int) :
    index_list_by_indices lst indices = none
      ↔ ∃ i ∈ indices, pyGet lst i = none := by
  induction indices with
  | nil => simp [index_list_by_indices]
  | cons i is ih =>
    rw [index_list_by_indices]
    cases hg : pyGet lst i with
    | none =>
      simp only [hg]
      constructor
      · intro _
        exact ⟨i, List.mem_cons_self i is, hg⟩
      · intro _
        trivial
    | some x =>
      cases hr : index_list_by_indices lst is with
      | none =>
        simp only [hr]
        constructor
        · intro _
          rcases ih.mp hr with ⟨j, hj, hjn⟩
          exact ⟨j, List.mem_cons_of_mem i hj, hjn⟩
        · intro _
          trivial
      | some xs =>
        simp only [hr]
        constructor
        · intro hc
          exact absurd hc (by simp)
        · rintro ⟨j, hj, hjn⟩
          rcases List.mem_cons.mp hj with rfl | hj
          · rw [hg] at hjn
            cases hjn
          · rw [ih.mpr ⟨j, hj, hjn⟩] at hr
            cases hr

theorem gds_default (data : List Sample) (rl : List Int)
    (sq : List Int × List Int × List Int) (e : Nat) (st : String)
    (h1 : st ≠ "seq_identity") (h2 : st ≠ "rmsd") (h3 : st ≠ "struct") :
    get_data_splits data rl sq e st = .ok (makeSlices data e) := by
  rw [get_data_splits, if_neg h1, if_neg h2, if_neg h3]

theorem gds_rmsd_inv (data : List Sample) (rl : List Int)
    (sq : List Int × List Int × List Int) (e : Nat)
    (tr va te : List Sample)
    (h : get_data_splits data rl sq e "rmsd" = .ok (tr, va, te)) :
    data.length = rl.length ∧
      (tr, va, te) = makeSlices ((sortDesc (data.zip rl)).map Prod.fst) e := by
  rw [get_data_splits, if_neg (by decide), if_pos rfl] at h
  by_cases hlen : data.length = rl.length
  · refine ⟨hlen, ?_⟩
    rw [if_pos hlen] at h
    cases hu : pyUnzipPair (sortDesc (data.zip rl)) with
    | none => rw [hu] at h; cases h
    | some p =>
      rw [hu] at h
      rw [pyUnzipPair] at hu
      by_cases he : (sortDesc (data.zip rl)).isEmpty
      · rw [if_pos he] at hu; cases hu
      · rw [if_neg he] at hu
        cases hu
        cases h
        rfl
  · rw [if_neg hlen] at h
    cases h

theorem gds_struct_inv (data : List Sample) (rl : List Int)
    (sq : List Int × List Int × List Int) (e : Nat)
    (tr va te : List Sample)
    (h : get_data_splits data rl sq e "struct" = .ok (tr, va, te)) :
    (tr, va, te)
      = makeSlices ((sortDesc (data.zip (count_list data))).map Prod.fst) e := by
  rw [get_data_splits, if_neg (by decide), if_neg (by decide), if_pos rfl] at h
  cases hu : pyUnzipPair (sortDesc (data.zip (count_list data))) with
  | none => rw [hu] at h; cases h
  | some p =>
    rw [hu] at h
    rw [pyUnzipPair] at hu
    by_cases he : (sortDesc (data.zip (count_list data))).isEmpty
    · rw [if_pos he] at hu; cases hu
    · rw [if_neg he] at hu
      cases hu
      cases h
      rfl

theorem count_list_length (data : List Sample) :
    (count_list data).length = data.length := by
  simp [count_list]

theorem sortDesc_map_fst_perm (data : List Sample) (metr : List Int)
    (hlen : data.length = metr.length) :
    ((sortDesc (data.zip metr)).map Prod.fst).Perm data := by
  have h1 : ((sortDesc (data.zip metr)).map Prod.fst).Perm
      ((data.zip metr).map Prod.fst) := (sortDesc_perm _).map Prod.fst
  rw [List.map_fst_zip data metr (le_of_eq hlen)] at h1
  exact h1

theorem greedyGo_flatten (size : Nat → Nat) (m : Nat) (l : List Nat) :
    ∀ cur : List Nat, (greedyGo size m cur l).flatten = cur.reverse ++ l := by
  induction l with
  | nil => intro cur; simp [greedyGo]
  | cons i rest ih =>
    intro cur
    rw [greedyGo]
    by_cases h : (cur.map size).sum + size i ≤ m
    · rw [if_pos h, ih (i :: cur)]
      simp
    · rw [if_neg h]
      simp [ih [i]]

theorem greedyBatches_flatten (size : Nat → Nat) (m : Nat) (order : List Nat) :
    (greedyBatches size m order).flatten = order := by
  cases order with
  | nil => rfl
  | cons i rest =>
    rw [greedyBatches, greedyGo_flatten]
    rfl

theorem greedyGo_budget (size : Nat → Nat) (m : Nat) (l : List Nat) :
    ∀ cur : List Nat, ((cur.map size).sum ≤ m ∨ ∃ j, cur = [j]) →
      ∀ b ∈ greedyGo size m cur l,
        (b.map size).sum ≤ m ∨ ∃ i, b = [i] ∧ m < size i := by
  induction l with
  | nil =>
    intro cur hcur b hb
    rw [greedyGo, List.mem_singleton] at hb
    subst hb
    rcases hcur with hle | ⟨j, rfl⟩
    · left
      rw [List.map_reverse, List.sum_reverse]
      exact hle
    · rcases le_or_lt (size j) m with hj | hj
      · left
        simpa using hj
      · right
        exact ⟨j, rfl, hj⟩
  | cons i rest ih =>
    intro cur hcur b hb
    rw [greedyGo] at hb
    by_cases h : (cur.map size).sum + size i ≤ m
    · rw [if_pos h] at hb
      refine ih (i :: cur) (Or.inl ?_) b hb
      simpa [Nat.add_comm] using h
    · rw [if_neg h, List.mem_cons] at hb
      rcases hb with rfl | hb
      · rcases hcur with hle | ⟨j, rfl⟩
        · left
          rw [List.map_reverse, List.sum_reverse]
          exact hle
        · rcases le_or_lt (size j) m with hj | hj
          · left
            simpa using hj
          · right
            exact ⟨j, rfl, hj⟩
      · exact ih [i] (Or.inr ⟨i, rfl⟩) b hb

theorem greedyBatches_budget (size : Nat → Nat) (m : Nat) (order : List Nat) :
    ∀ b ∈ greedyBatches size m order,
      (b.map size).sum ≤ m ∨ ∃ i, b = [i] ∧ m < size i := by
  cases order with
  | nil => intro b hb; cases hb
  | cons i rest =>
    intro b hb
    exact greedyGo_budget size m rest [i] (Or.inr ⟨i, rfl⟩) b hb

theorem gds_nonseq_inv (data : List Sample) (rl : List Int)
    (sq : List Int × List Int × List Int) (e : Nat) (st : String)
    (tr va te : List Sample) (h1 : st ≠ "seq_identity")
    (h : get_data_splits data rl sq e st = .ok (tr, va, te)) :
    ∃ d : List Sample, d.Perm data ∧ (tr, va, te) = makeSlices d e := by
  by_cases h2 : st = "rmsd"
  · subst h2
    obtain ⟨hlen, hmk⟩ := gds_rmsd_inv data rl sq e tr va te h
    exact ⟨_, sortDesc_map_fst_perm data rl hlen, hmk⟩
  · by_cases h3 : st = "struct"
    · subst h3
      have hmk := gds_struct_inv data rl sq e tr va te h
      exact ⟨_,
        sortDesc_map_fst_perm data (count_list data)
          (count_list_length data).symm, hmk⟩
    · rw [gds_default data rl sq e st h1 h2 h3] at h
      injection h with h4
      exact ⟨data, List.Perm.refl data, h4.symm⟩

/-- Claim C1: for every strategy other than seq_identity, `get_data_splits`
assigns the first `eval_size` items of the (possibly sorted) sample sequence
to test, the next `eval_size` to val, and the remainder to train; in
particular a 10-sample corpus with `eval_size = 3` under the random strategy
gives test = indices 0-2, val = indices 3-5, train = indices 6-9. -/
theorem claim_C1_slicing :
    (∀ (data : List Sample) (rl : List Int)
        (sq : List Int × List Int × List Int) (e : Nat) (st : String)
        (tr va te : List Sample),
        st ≠ "seq_identity" →
        get_data_splits data rl sq e st = .ok (tr, va, te) →
        ∃ d : List Sample, d.Perm data ∧ te = d.take e ∧
          va = (d.drop e).take e ∧ tr = d.drop (2 * e))
    ∧ get_data_splits
        [mkS 0, mkS 1, mkS 2, mkS 3, mkS 4, mkS 5, mkS 6, mkS 7, mkS 8, mkS 9]
        [] ([], [], []) 3 "random"
      = .ok ([mkS 6, mkS 7, mkS 8, mkS 9], [mkS 3, mkS 4, mkS 5],
             [mkS 0, mkS 1, mkS 2]) := by
  constructor
  · intro data rl sq e st tr va te h1 h
    obtain ⟨d, hperm, hmk⟩ := gds_nonseq_inv data rl sq e st tr va te h1 h
    refine ⟨d, hperm, ?_, ?_, ?_⟩
    · have := congrArg (fun p => p.2.2) hmk
      simpa [makeSlices] using this
    · have := congrArg (fun p => p.2.1) hmk
      simpa [makeSlices] using this
    · have := congrArg (fun p => p.1) hmk
      simpa [makeSlices] using this
  · rfl

/-- Witness for C1 at a concrete input: a 3-sample corpus with
`eval_size = 1` under the random strategy. -/
theorem claim_C1_witness :
    ∃ d : List Sample, d.Perm [mkS 0, mkS 1, mkS 2] ∧
      [mkS 0] = d.take 1 ∧ [mkS 1] = (d.drop 1).take 1 ∧
      [mkS 2] = d.drop (2 * 1) :=
  claim_C1_slicing.1 [mkS 0, mkS 1, mkS 2] [] ([], [], []) 1 "random"
    [mkS 2] [mkS 1] [mkS 0] (by decide) rfl

/-- Counterexample to claim C2 as stated: under the seq_identity strategy
an artifact whose three index lists all name sample 0 makes the splitter
return that sample three times, so train, val and test do not partition
the one-sample corpus. -/
theorem claim_C2_counterexample :
    get_data_splits [mkS 0] [] ([0], [0], [0]) 0 "seq_identity"
      = .ok ([mkS 0], [mkS 0], [mkS 0])
    ∧ ([mkS 0] ++ [mkS 0] ++ [mkS 0]).count (mkS 0) = 3 := by
  exact ⟨rfl, rfl⟩

/-- Claim C2, amended: for every strategy other than seq_identity, the
three returned lists form a partition of the corpus (their concatenation
is a permutation of the sample list); under seq_identity the lists are
whatever the precomputed artifact selects and need not partition. -/
theorem claim_C2_partition (data : List Sample) (rl : List Int)
    (sq : List Int × List Int × List Int) (e : Nat) (st : String)
    (tr va te : List Sample) (h1 : st ≠ "seq_identity")
    (h : get_data_splits data rl sq e st = .ok (tr, va, te)) :
    (te ++ va ++ tr).Perm data := by
  obtain ⟨d, hperm, hmk⟩ := gds_nonseq_inv data rl sq e st tr va te h1 h
  have h4 : te ++ va ++ tr
      = (makeSlices d e).2.2 ++ (makeSlices d e).2.1 ++ (makeSlices d e).1 :=
    congrArg (fun p => p.2.2 ++ p.2.1 ++ p.1) hmk
  rw [h4, makeSlices_append]
  exact hperm

/-- Witness for C2 at a concrete input: 3 samples, `eval_size = 1`,
random strategy. -/
theorem claim_C2_witness :
    ([mkS 0] ++ [mkS 1] ++ [mkS 2]).Perm [mkS 0, mkS 1, mkS 2] :=
  claim_C2_partition [mkS 0, mkS 1, mkS 2] [] ([], [], []) 1 "random"
    [mkS 2] [mkS 1] [mkS 0] (by decide) rfl

/-- Claim C3: for the rmsd and struct strategies the sample sequence is
sorted by the per-sample metric in non-increasing order before slicing
(the concatenation test ++ val ++ train of a successful split is exactly
the sorted sequence), and the sort is stable: the elements carrying any
fixed metric value appear in the sorted sequence exactly as they appear
in the input. -/
theorem claim_C3_sorted_stable :
    (∀ l : List (Sample × Int), List.Sorted keyGe (sortDesc l))
    ∧ (∀ (l : List (Sample × Int)) (k : Int),
        (sortDesc l).filter (fun y => y.2 == k)
          = l.filter (fun y => y.2 == k))
    ∧ (∀ (data : List Sample) (rl : List Int)
        (sq : List Int × List Int × List Int) (e : Nat)
        (tr va te : List Sample),
        get_data_splits data rl sq e "rmsd" = .ok (tr, va, te) →
        te ++ va ++ tr = (sortDesc (data.zip rl)).map Prod.fst)
    ∧ (∀ (data : List Sample) (rl : List Int)
        (sq : List Int × List Int × List Int) (e : Nat)
        (tr va te : List Sample),
        get_data_splits data rl sq e "struct" = .ok (tr, va, te) →
        te ++ va ++ tr
          = (sortDesc (data.zip (count_list data))).map Prod.fst) := by
  refine ⟨sortDesc_sorted, fun l k => sortDesc_filter k l, ?_, ?_⟩
  · intro data rl sq e tr va te h
    obtain ⟨_, hmk⟩ := gds_rmsd_inv data rl sq e tr va te h
    set d := (sortDesc (data.zip rl)).map Prod.fst with hd
    have h4 : te ++ va ++ tr
        = (makeSlices d e).2.2 ++ (makeSlices d e).2.1 ++ (makeSlices d e).1 :=
      congrArg (fun p => p.2.2 ++ p.2.1 ++ p.1) hmk
    rw [makeSlices_append] at h4
    exact h4
  · intro data rl sq e tr va te h
    have hmk := gds_struct_inv data rl sq e tr va te h
    set d := (sortDesc (data.zip (count_list data))).map Prod.fst with hd
    have h4 : te ++ va ++ tr
        = (makeSlices d e).2.2 ++ (makeSlices d e).2.1 ++ (makeSlices d e).1 :=
      congrArg (fun p => p.2.2 ++ p.2.1 ++ p.1) hmk
    rw [makeSlices_append] at h4
    exact h4

/-- Witness for C3 at a concrete input with a tie: metric values 5, 9, 5;
the two samples with metric 5 keep their original relative order, and an
rmsd split of that corpus slices the descending sequence. -/
theorem claim_C3_witness :
    List.Sorted keyGe (sortDesc [(mkS 0, (5 : Int)), (mkS 1, 9), (mkS 2, 5)])
    ∧ (sortDesc [(mkS 0, (5 : Int)), (mkS 1, 9), (mkS 2, 5)]).filter
        (fun y => y.2 == (5 : Int))
      = [(mkS 0, (5 : Int)), (mkS 1, 9), (mkS 2, 5)].filter
          (fun y => y.2 == (5 : Int))
    ∧ [mkS 1] ++ [mkS 0] ++ [mkS 2]
      = (sortDesc ([mkS 0, mkS 1, mkS 2].zip [(5 : Int), 9, 5])).map
          Prod.fst :=
  ⟨claim_C3_sorted_stable.1 [(mkS 0, (5 : Int)), (mkS 1, 9), (mkS 2, 5)],
   claim_C3_sorted_stable.2.1 [(mkS 0, (5 : Int)), (mkS 1, 9), (mkS 2, 5)] 5,
   claim_C3_sorted_stable.2.2.1 [mkS 0, mkS 1, mkS 2] [(5 : Int), 9, 5]
     ([], [], []) 1 [mkS 2] [mkS 0] [mkS 1] rfl⟩

/-- Counterexample to claim C4 as stated: a seq_identity artifact whose
index lists overlap (index 0 appears in all three) and do not cover the
corpus is accepted without any error. -/
theorem claim_C4_counterexample :
    get_data_splits [mkS 0, mkS 1] [] ([0, 1], [0], [0]) 1 "seq_identity"
      = .ok ([mkS 0, mkS 1], [mkS 0], [mkS 0]) := rfl

/-- Claim C4, amended: the seq_identity path performs no validation of the
artifact; disjointness and coverage are never checked (see the
counterexample), and the only failure is an IndexError raised when some
artifact index lies outside the Python range `[-n, n)` for a corpus of
`n` samples, at the moment that list is indexed. -/
theorem claim_C4_out_of_range (data : List Sample) (rl : List Int)
    (sq : List Int × List Int × List Int) (e : Nat) (i : Int)
    (hmem : i ∈ sq.1 ∨ i ∈ sq.2.1 ∨ i ∈ sq.2.2)
    (hoob : i < -(data.length : Int) ∨ (data.length : Int) ≤ i) :
    get_data_splits data rl sq e "seq_identity" = .error .indexError := by
  have hnone := pyGet_eq_none_of_oob data i hoob
  rcases hmem with hm | hm | hm
  · have h1 : index_list_by_indices data sq.1 = none :=
      (index_list_by_indices_eq_none_iff data sq.1).mpr ⟨i, hm, hnone⟩
    rw [get_data_splits, if_pos rfl]
    cases hA : index_list_by_indices data sq.1 <;>
      cases hB : index_list_by_indices data sq.2.1 <;>
        cases hC : index_list_by_indices data sq.2.2 <;>
          first
          | rfl
          | (rw [h1] at hA; cases hA)
  · have h1 : index_list_by_indices data sq.2.1 = none :=
      (index_list_by_indices_eq_none_iff data sq.2.1).mpr ⟨i, hm, hnone⟩
    rw [get_data_splits, if_pos rfl]
    cases hA : index_list_by_indices data sq.1 <;>
      cases hB : index_list_by_indices data sq.2.1 <;>
        cases hC : index_list_by_indices data sq.2.2 <;>
          first
          | rfl
          | (rw [h1] at hB; cases hB)
  · have h1 : index_list_by_indices data sq.2.2 = none :=
      (index_list_by_indices_eq_none_iff data sq.2.2).mpr ⟨i, hm, hnone⟩
    rw [get_data_splits, if_pos rfl]
    cases hA : index_list_by_indices data sq.1 <;>
      cases hB : index_list_by_indices data sq.2.1 <;>
        cases hC : index_list_by_indices data sq.2.2 <;>
          first
          | rfl
          | (rw [h1] at hC; cases hC)

/-- Witness for C4 at a concrete input: artifact train list `[5]` on a
one-sample corpus raises IndexError. -/
theorem claim_C4_witness :
    get_data_splits [mkS 0] [] ([5], [], []) 1 "seq_identity"
      = .error .indexError :=
  claim_C4_out_of_range [mkS 0] [] ([5], [], []) 1 5
    (Or.inl (by decide)) (Or.inr (by decide))

/-- Counterexample to claim C5 as stated: a 2-sample corpus with
`eval_size = 1` has `2 * eval_size >= n`, yet the splitter returns a
result (with an empty train list) instead of failing. -/
theorem claim_C5_counterexample :
    get_data_splits [mkS 0, mkS 1] [] ([], [], []) 1 "random"
      = .ok ([], [mkS 1], [mkS 0]) := rfl

/-- Claim C5, amended: there is no eval_size check at all; when
`2 * eval_size >= n` the default (random) branch still returns a
SplitAssignment, with an empty train list, because Python slices clamp. -/
theorem claim_C5_no_config_error (data : List Sample) (rl : List Int)
    (sq : List Int × List Int × List Int) (e : Nat) (st : String)
    (h1 : st ≠ "seq_identity") (h2 : st ≠ "rmsd") (h3 : st ≠ "struct")
    (hsz : data.length ≤ 2 * e) :
    get_data_splits data rl sq e st
      = .ok ([], (data.drop e).take e, data.take e) := by
  rw [gds_default data rl sq e st h1 h2 h3, makeSlices,
    List.drop_eq_nil_of_le hsz]

/-- Witness for C5 at a concrete input: one sample, `eval_size = 1`. -/
theorem claim_C5_witness :
    get_data_splits [mkS 0] [] ([], [], []) 1 "random"
      = .ok ([], ([mkS 0].drop 1).take 1, [mkS 0].take 1) :=
  claim_C5_no_config_error [mkS 0] [] ([], [], []) 1 "random"
    (by decide) (by decide) (by decide) (by decide)

/-- Counterexample to claim C6 as stated: the unknown strategy string
"bogus" is not rejected; the splitter returns a normal random-style
split. -/
theorem claim_C6_counterexample :
    get_data_splits [mkS 0, mkS 1, mkS 2] [] ([], [], []) 1 "bogus"
      = .ok ([mkS 2], [mkS 1], [mkS 0]) := rfl

/-- Claim C6, amended: there is no strategy validation; any strategy
string outside {seq_identity, rmsd, struct} falls through to the final
else branch and behaves exactly like the random strategy. -/
theorem claim_C6_unknown_strategy (data : List Sample) (rl : List Int)
    (sq : List Int × List Int × List Int) (e : Nat) (st : String)
    (h1 : st ≠ "seq_identity") (h2 : st ≠ "rmsd") (h3 : st ≠ "struct") :
    get_data_splits data rl sq e st
      = get_data_splits data rl sq e "random" := by
  rw [gds_default data rl sq e st h1 h2 h3,
    gds_default data rl sq e "random" (by decide) (by decide) (by decide)]

/-- Witness for C6 at a concrete input: strategy "bogus2" equals random. -/
theorem claim_C6_witness :
    get_data_splits [mkS 0] [] ([], [], []) 0 "bogus2"
      = get_data_splits [mkS 0] [] ([], [], []) 0 "random" :=
  claim_C6_unknown_strategy [mkS 0] [] ([], [], []) 0 "bogus2"
    (by decide) (by decide) (by decide)

/-- Claim C7: for the rmsd strategy, a metric list whose length differs
from the sample list's length makes the splitter fail (the `assert` at
src/main.py line 80, the spec's DataError); for the struct strategy the
metric list is computed per sample, so its length always equals the
sample count and a mismatch cannot arise (which is why the assert at
line 93 compares `count_list` with itself and is vacuous). -/
theorem claim_C7_metric_mismatch :
    (∀ (data : List Sample) (rl : List Int)
        (sq : List Int × List Int × List Int) (e : Nat),
        data.length ≠ rl.length →
        get_data_splits data rl sq e "rmsd" = .error .assertionError)
    ∧ ∀ data : List Sample, (count_list data).length = data.length := by
  constructor
  · intro data rl sq e hne
    rw [get_data_splits, if_neg (by decide), if_pos rfl, if_neg hne]
  · exact count_list_length

/-- Witness for C7 at a concrete input: one sample, empty metric list. -/
theorem claim_C7_witness :
    get_data_splits [mkS 0] [] ([], [], []) 1 "rmsd"
      = .error .assertionError :=
  claim_C7_metric_mismatch.1 [mkS 0] [] ([], [], []) 1 (by decide)

/-- Claim C8: for every epoch ordering, every batch emitted by the greedy
packer either fits the `max_nodes` budget or is a singleton whose sole
member alone exceeds the budget; the concatenation of the batches is
exactly the epoch ordering, so when the ordering lists each split index
once, every index appears in exactly one batch. -/
theorem claim_C8_batch_invariants (size : Nat → Nat) (maxNodes : Nat)
    (order : List Nat) :
    (∀ b ∈ greedyBatches size maxNodes order,
        (b.map size).sum ≤ maxNodes ∨ ∃ i, b = [i] ∧ maxNodes < size i)
    ∧ (greedyBatches size maxNodes order).flatten = order
    ∧ (order.Nodup → ∀ i ∈ order,
        ((greedyBatches size maxNodes order).map (List.count i)).sum = 1) := by
  refine ⟨greedyBatches_budget size maxNodes order,
    greedyBatches_flatten size maxNodes order, ?_⟩
  intro hnd i hi
  have h1 := List.count_flatten i (greedyBatches size maxNodes order)
  rw [greedyBatches_flatten] at h1
  rw [← h1]
  exact List.count_eq_one_of_mem hnd hi

/-- Witness for C8 at the spec's concrete scenario: sizes
`[60, 40, 30, 20, 10]` and budget 100 in original order give batches
`[[0, 1], [2, 3, 4]]`, which cover each index exactly once. -/
theorem claim_C8_witness :
    (greedyBatches (fun i => [60, 40, 30, 20, 10].getD i 0) 100
        [0, 1, 2, 3, 4]).flatten = [0, 1, 2, 3, 4]
    ∧ ((greedyBatches (fun i => [60, 40, 30, 20, 10].getD i 0) 100
        [0, 1, 2, 3, 4]).map (List.count 0)).sum = 1
    ∧ greedyBatches (fun i => [60, 40, 30, 20, 10].getD i 0) 100
        [0, 1, 2, 3, 4] = [[0, 1], [2, 3, 4]] :=
  ⟨(claim_C8_batch_invariants (fun i => [60, 40, 30, 20, 10].getD i 0) 100
      [0, 1, 2, 3, 4]).2.1,
   (claim_C8_batch_invariants (fun i => [60, 40, 30, 20, 10].getD i 0) 100
      [0, 1, 2, 3, 4]).2.2 (by decide) 0 (by decide),
   by decide⟩

/-- Claim C9: a negative artifact index `i` with `-n <= i < 0` for a
corpus of `n` samples is silently accepted by `index_list_by_indices`,
which returns the sample at position `n + i` (Python negative indexing)
without raising any error. -/
theorem claim_C9_negative_index (l : List Sample) (i : Int)
    (h1 : -(l.length : Int) ≤ i) (h2 : i < 0) :
    ∃ hlt : ((l.length : Int) + i).toNat < l.length,
      index_list_by_indices l [i]
        = some [l.get ⟨((l.length : Int) + i).toNat, hlt⟩] := by
  obtain ⟨hlt, hg⟩ := pyGet_neg l i h1 h2
  refine ⟨hlt, ?_⟩
  rw [index_list_by_indices, hg]
  rfl

/-- Witness for C9 at a concrete input: index -1 on a 2-sample corpus
selects position 1. -/
theorem claim_C9_witness :
    ∃ hlt : ((([mkS 7, mkS 8].length : Int) + (-1)).toNat
        < [mkS 7, mkS 8].length),
      index_list_by_indices [mkS 7, mkS 8] [(-1)]
        = some [[mkS 7, mkS 8].get
            ⟨((([mkS 7, mkS 8].length : Int) + (-1)).toNat), hlt⟩] :=
  claim_C9_negative_index [mkS 7, mkS 8] (-1) (by decide) (by decide)

/-- Claim C10: on an empty corpus the rmsd and struct strategies fail
(unpacking `zip(*sorted_zipped)` raises, here `ValueError`; for rmsd the
metric list computed from the empty corpus is itself empty), while the
random strategy returns three empty splits without error. -/
theorem claim_C10_empty_corpus (rl : List Int)
    (sq : List Int × List Int × List Int) (e : Nat) :
    (rl = [] → get_data_splits [] rl sq e "rmsd" = .error .valueError)
    ∧ get_data_splits [] rl sq e "struct" = .error .valueError
    ∧ get_data_splits [] rl sq e "random" = .ok ([], [], []) := by
  refine ⟨?_, rfl, ?_⟩
  · rintro rfl
    rfl
  · rw [gds_default [] rl sq e "random" (by decide) (by decide) (by decide)]
    simp [makeSlices]

/-- Witness for C10 at a concrete input: empty corpus, empty metric
list, `eval_size = 2`. -/
theorem claim_C10_witness :
    get_data_splits [] [] ([], [], []) 2 "rmsd" = .error .valueError
    ∧ get_data_splits [] [] ([], [], []) 2 "struct" = .error .valueError
    ∧ get_data_splits [] [] ([], [], []) 2 "random" = .ok ([], [], []) :=
  ⟨(claim_C10_empty_corpus [] ([], [], []) 2).1 rfl,
   (claim_C10_empty_corpus [] ([], [], []) 2).2.1,
   (claim_C10_empty_corpus [] ([], [], []) 2).2.2⟩

end RNASplit
